import Mathlib

/-!
Verification development for `scripts/generate-summary.py`: a shallow
embedding of the session-summary pipeline (log parsing, event
classification/aggregation, section generation and document rendering),
together with theorems settling the specification claims.

Modelling conventions:
* JSON values decoded by `json.loads` are modelled by `JValue`; JSON
  numbers are modelled as integers (no claim involves floats).
* Python dictionaries are association lists; keys of objects decoded
  from JSON are unique, so lookup order is immaterial.
* Python exceptions (for example `AttributeError` from calling `.get`
  on a non-dictionary) are modelled with `Except String`; the error
  payloads are descriptive strings, not byte-accurate Python messages.
* Python string indexing/slicing/`len` operate on code points, as do
  `String.take` and `String.length`.
-/

/-- One decoded JSON value from a log line (Python object produced by
`json.loads`). -/
inductive JValue where
  | null : JValue
  | bool (b : Bool) : JValue
  | num (n : Int) : JValue
  | str (s : String) : JValue
  | arr (xs : List JValue) : JValue
  | obj (fields : List (String × JValue)) : JValue

mutual

/-- Decidable equality of JSON values (written by hand because automatic
derivation does not support the nested `List` occurrences). -/
def JValue.decEq : (a b : JValue) → Decidable (a = b)
  | .null, .null => isTrue rfl
  | .null, .bool _ => isFalse (fun h => nomatch h)
  | .null, .num _ => isFalse (fun h => nomatch h)
  | .null, .str _ => isFalse (fun h => nomatch h)
  | .null, .arr _ => isFalse (fun h => nomatch h)
  | .null, .obj _ => isFalse (fun h => nomatch h)
  | .bool _, .null => isFalse (fun h => nomatch h)
  | .bool a, .bool b =>
    if h : a = b then isTrue (by rw [h]) else isFalse (fun hh => h (JValue.bool.inj hh))
  | .bool _, .num _ => isFalse (fun h => nomatch h)
  | .bool _, .str _ => isFalse (fun h => nomatch h)
  | .bool _, .arr _ => isFalse (fun h => nomatch h)
  | .bool _, .obj _ => isFalse (fun h => nomatch h)
  | .num _, .null => isFalse (fun h => nomatch h)
  | .num _, .bool _ => isFalse (fun h => nomatch h)
  | .num a, .num b =>
    if h : a = b then isTrue (by rw [h]) else isFalse (fun hh => h (JValue.num.inj hh))
  | .num _, .str _ => isFalse (fun h => nomatch h)
  | .num _, .arr _ => isFalse (fun h => nomatch h)
  | .num _, .obj _ => isFalse (fun h => nomatch h)
  | .str _, .null => isFalse (fun h => nomatch h)
  | .str _, .bool _ => isFalse (fun h => nomatch h)
  | .str _, .num _ => isFalse (fun h => nomatch h)
  | .str a, .str b =>
    if h : a = b then isTrue (by rw [h]) else isFalse (fun hh => h (JValue.str.inj hh))
  | .str _, .arr _ => isFalse (fun h => nomatch h)
  | .str _, .obj _ => isFalse (fun h => nomatch h)
  | .arr _, .null => isFalse (fun h => nomatch h)
  | .arr _, .bool _ => isFalse (fun h => nomatch h)
  | .arr _, .num _ => isFalse (fun h => nomatch h)
  | .arr _, .str _ => isFalse (fun h => nomatch h)
  | .arr xs, .arr ys =>
    match JValue.decEqList xs ys with
    | isTrue h => isTrue (by rw [h])
    | isFalse h => isFalse (fun hh => h (JValue.arr.inj hh))
  | .arr _, .obj _ => isFalse (fun h => nomatch h)
  | .obj _, .null => isFalse (fun h => nomatch h)
  | .obj _, .bool _ => isFalse (fun h => nomatch h)
  | .obj _, .num _ => isFalse (fun h => nomatch h)
  | .obj _, .str _ => isFalse (fun h => nomatch h)
  | .obj _, .arr _ => isFalse (fun h => nomatch h)
  | .obj xs, .obj ys =>
    match JValue.decEqFields xs ys with
    | isTrue h => isTrue (by rw [h])
    | isFalse h => isFalse (fun hh => h (JValue.obj.inj hh))

/-- Decidable equality of JSON value lists. -/
def JValue.decEqList : (a b : List JValue) → Decidable (a = b)
  | [], [] => isTrue rfl
  | [], _ :: _ => isFalse (fun h => nomatch h)
  | _ :: _, [] => isFalse (fun h => nomatch h)
  | x :: xs, y :: ys =>
    match JValue.decEq x y with
    | isFalse h1 => isFalse (fun hh => h1 (List.cons.inj hh).1)
    | isTrue h1 =>
      match JValue.decEqList xs ys with
      | isTrue h2 => isTrue (by rw [h1, h2])
      | isFalse h2 => isFalse (fun hh => h2 (List.cons.inj hh).2)

/-- Decidable equality of JSON object field lists. -/
def JValue.decEqFields : (a b : List (String × JValue)) → Decidable (a = b)
  | [], [] => isTrue rfl
  | [], _ :: _ => isFalse (fun h => nomatch h)
  | _ :: _, [] => isFalse (fun h => nomatch h)
  | (k1, v1) :: xs, (k2, v2) :: ys =>
    if hk : k1 = k2 then
      match JValue.decEq v1 v2 with
      | isFalse h1 =>
        isFalse (fun hh => h1 (congrArg Prod.snd (List.cons.inj hh).1))
      | isTrue h1 =>
        match JValue.decEqFields xs ys with
        | isTrue h2 => isTrue (by rw [hk, h1, h2])
        | isFalse h2 => isFalse (fun hh => h2 (List.cons.inj hh).2)
    else
      isFalse (fun hh => hk (congrArg Prod.fst (List.cons.inj hh).1))

end

instance : DecidableEq JValue := JValue.decEq

/-- Python `d.get(k)` on a dictionary: `none` models Python `None`
returned for an absent key.  On non-objects the places in the code that
would raise are modelled explicitly, so this returns `none` there. -/
def JValue.get : JValue → String → Option JValue
  | .obj fields, k => List.lookup k fields
  | _, _ => none

/-- Python truthiness (`if x:`) of the value returned by `d.get(k)`:
absent key gives `None` (falsy); empty string, empty list, empty dict,
zero and `False` are falsy; everything else is truthy. -/
def truthy : Option JValue → Bool
  | none => false
  | some .null => false
  | some (.bool b) => b
  | some (.num n) => n != 0
  | some (.str s) => s != ""
  | some (.arr xs) => !xs.isEmpty
  | some (.obj fs) => !fs.isEmpty

/-- Tool-invocation descriptor `dict(name=..., input=...)` built by
`extract_summary_data`; `none` models the Python `None` that `.get`
yields for a missing field. -/
structure ToolUse where
  name : Option JValue
  input : Option JValue
deriving DecidableEq

/-- Tool-result descriptor `dict(tool_use_id=..., content=...)` built
by `extract_summary_data`. -/
structure ToolResult where
  tool_use_id : Option JValue
  content : Option JValue
deriving DecidableEq

/-- The aggregate dictionary `data` built by `extract_summary_data`:
five append-only buckets. -/
structure SummaryData where
  user_messages : List JValue
  assistant_messages : List JValue
  tool_uses : List ToolUse
  tool_results : List ToolResult
  errors : List ToolResult
deriving DecidableEq

/-- The initial aggregate with all five buckets empty. -/
def emptyData : SummaryData := ⟨[], [], [], [], []⟩

/-- The `for item in content` loop of the user branch: dictionary items
with type equal to text contribute their text field (default empty),
bare-string items are appended directly, other shapes are skipped. -/
def userContentItems : List JValue → List JValue
  | [] => []
  | item :: rest =>
    match item with
    | .obj _ =>
      if item.get "type" = some (.str "text") then
        ((item.get "text").getD (.str "")) :: userContentItems rest
      else
        userContentItems rest
    | .str s => .str s :: userContentItems rest
    | _ => userContentItems rest

/-- The `for item in content` loop of the assistant branch: only
dictionary items are inspected; type text contributes a message text,
type tool_use contributes a tool-invocation descriptor.
Returns the appended texts and tool uses in order. -/
def asstContentItems : List JValue → List JValue × List ToolUse
  | [] => ([], [])
  | item :: rest =>
    let tl := asstContentItems rest
    match item with
    | .obj _ =>
      if item.get "type" = some (.str "text") then
        (((item.get "text").getD (.str "")) :: tl.1, tl.2)
      else if item.get "type" = some (.str "tool_use") then
        (tl.1, ⟨item.get "name", item.get "input"⟩ :: tl.2)
      else
        tl
    | _ => tl

/-- The role-dispatch part of the loop body of `extract_summary_data`:
`event.get` of the message field with the event as fallback (taken only
when the key is absent), then `.get` of the role — which raises `AttributeError`
when `msg` is not a dictionary — then the `user`/`assistant` branches.
Only called on events that are dictionaries. -/
def handleMessage (d : SummaryData) (event : JValue) : Except String SummaryData :=
  match (event.get "message").getD event with
  | .obj mfs =>
    if List.lookup "role" mfs = some (.str "user") then
      match (List.lookup "content" mfs).getD (.str "") with
      | .str s => .ok { d with user_messages := d.user_messages ++ [.str s] }
      | .arr items =>
          .ok { d with user_messages := d.user_messages ++ userContentItems items }
      | _ => .ok d
    else if List.lookup "role" mfs = some (.str "assistant") then
      match (List.lookup "content" mfs).getD (.str "") with
      | .str s =>
          .ok { d with assistant_messages := d.assistant_messages ++ [.str s] }
      | .arr items =>
          .ok { d with assistant_messages := d.assistant_messages ++ (asstContentItems items).1,
                       tool_uses := d.tool_uses ++ (asstContentItems items).2 }
      | _ => .ok d
    else
      .ok d
  | _ => .error "AttributeError: effective message is not a mapping"

/-- The trailing tool-result check (`event.get` of type compared with
tool_result) of the loop
body: build a descriptor, append it to the error bucket when
`is_error` is truthy, and unconditionally to the tool-result bucket. -/
def handleToolResult (d : SummaryData) (event : JValue) : SummaryData :=
  if event.get "type" = some (.str "tool_result") then
    if truthy (event.get "is_error") then
      { d with errors := d.errors ++ [⟨event.get "tool_use_id", event.get "content"⟩],
               tool_results := d.tool_results ++ [⟨event.get "tool_use_id", event.get "content"⟩] }
    else
      { d with tool_results := d.tool_results ++ [⟨event.get "tool_use_id", event.get "content"⟩] }
  else d

/-- One iteration of `for event in events:` in `extract_summary_data`:
non-dictionary events are skipped; for dictionaries the role dispatch
runs first (and may raise), then the tool-result check. -/
def processEvent (d : SummaryData) (event : JValue) : Except String SummaryData :=
  match event with
  | .obj _ =>
    match handleMessage d event with
    | .ok d1 => .ok (handleToolResult d1 event)
    | .error e => .error e
  | _ => .ok d

/-- The event loop of `extract_summary_data` from a given aggregate. -/
def extractLoop (d : SummaryData) : List JValue → Except String SummaryData
  | [] => .ok d
  | e :: rest =>
    match processEvent d e with
    | .ok d1 => extractLoop d1 rest
    | .error err => .error err

/-- `extract_summary_data(events)`: fold the classifier over the decoded
records, starting from empty buckets.  An uncaught Python exception is
modelled as `Except.error`. -/
def extract_summary_data (events : List JValue) : Except String SummaryData :=
  extractLoop emptyData events

example : extract_summary_data
    [.obj [("message", .obj [("role", .str "user"), ("content", .str "hi")])],
     .obj [("message", .obj [("role", .str "assistant"),
            ("content", .arr [.obj [("type", .str "text"), ("text", .str "chose to use X")]])])]]
    = .ok ⟨[.str "hi"], [.str "chose to use X"], [], [], []⟩ := rfl

example : extract_summary_data [.obj [("message", .str "oops")]]
    = .error "AttributeError: effective message is not a mapping" := rfl

example : extract_summary_data
    [.obj [("type", .str "tool_result"), ("is_error", .bool true)]]
    = .ok ⟨[], [], [], [⟨none, none⟩], [⟨none, none⟩]⟩ := rfl

/-- `generate_current_state(data)`: the one-line status summary.  The
Python function also slices the last three assistant messages into a
local that is never used; that dead local is omitted. -/
def generate_current_state (d : SummaryData) : String :=
  let tool_count := d.tool_uses.length
  let error_count := d.errors.length
  let state := "**State:** Session with " ++ toString tool_count ++ " actions taken"
  let state := if error_count > 0 then
                 state ++ " | **Errors:** " ++ toString error_count ++ " encountered"
               else
                 state ++ " | **Errors:** None"
  state ++ " | **Messages:** " ++ toString d.user_messages.length ++ " exchanges"

/-- The status line as the spec describes it: a single line reporting
the tool-invocation count as actions taken, the error count when
positive (else the word None), and the user-message count as
exchanges. -/
def statusLineSpec (actions errors exchanges : Nat) : String :=
  "**State:** Session with " ++ toString actions ++ " actions taken" ++
    (if errors > 0 then " | **Errors:** " ++ toString errors ++ " encountered"
     else " | **Errors:** None") ++
    " | **Messages:** " ++ toString exchanges ++ " exchanges"

/-- The fixed keyword list of `generate_decisions_section`. -/
def keywords : List String := ["chose", "decided", "selected", "using", "rejected"]

/-- Python `.lower()`, character-wise ASCII lowering (all keyword
characters are ASCII, so the Unicode special cases of Python are not
needed by any claim). -/
def pyLower (s : String) : String := ⟨s.data.map Char.toLower⟩

/-- Python substring containment `needle in hay` on character lists. -/
def listInfixOf (needle : List Char) : List Char → Bool
  | [] => needle.isEmpty
  | c :: rest => needle.isPrefixOf (c :: rest) || listInfixOf needle rest

/-- Python `needle in hay` for strings. -/
def strContains (hay needle : String) : Bool := listInfixOf needle.data hay.data

/-- The keyword test applied to one assistant message:
`any(keyword in msg.lower() for keyword in [...])`. -/
def hasDecisionKeyword (s : String) : Bool :=
  keywords.any fun k => strContains (pyLower s) k

/-- Truncation applied by `generate_decisions_section`:
the first 200 characters followed by three dots when the length
exceeds 200, else the message itself. -/
def truncate200 (s : String) : String :=
  if s.length > 200 then s.take 200 ++ "..." else s

/-- The loop over the assistant-message bucket of
`generate_decisions_section`: `msg.lower()` raises `AttributeError` when
a bucket element is not a string. -/
def decisionEntries : List JValue → Except String (List String)
  | [] => .ok []
  | .str s :: rest =>
    match decisionEntries rest with
    | .error e => .error e
    | .ok tl =>
      if hasDecisionKeyword s then
        .ok (("- " ++ truncate200 s) :: tl)
      else
        .ok tl
  | _ :: _ => .error "AttributeError: message is not a string"

/-- `generate_decisions_section(data)`: the bulleted decision list, with
the placeholder line when no message matched. -/
def generate_decisions_section (d : SummaryData) : Except String String :=
  match decisionEntries d.assistant_messages with
  | .error e => .error e
  | .ok ds =>
    .ok (String.intercalate "\n"
      (if ds.isEmpty then ["- No explicit decisions recorded in this session"] else ds))

/-- The decision list as the spec describes it: exactly the messages
containing a keyword (case-insensitively), in order, each once,
truncated at 200 characters with a marker, with a single placeholder
line when nothing matches. -/
def decisionsSpec (msgs : List String) : List String :=
  if ((msgs.filter hasDecisionKeyword).map fun m => "- " ++ truncate200 m).isEmpty then
    ["- No explicit decisions recorded in this session"]
  else
    (msgs.filter hasDecisionKeyword).map fun m => "- " ++ truncate200 m

mutual

/-- Python `repr` of a JSON-decoded value, used when such a value is
interpolated into an f-string inside a container.  String quoting is
modelled without escape sequences (no claim exercises quotes,
backslashes or control characters inside represented strings). -/
def pyRepr : JValue → String
  | .null => "None"
  | .bool b => if b then "True" else "False"
  | .num n => toString n
  | .str s => String.singleton (Char.ofNat 39) ++ s ++ String.singleton (Char.ofNat 39)
  | .arr xs => "[" ++ String.intercalate ", " (pyReprList xs) ++ "]"
  | .obj fs => "\x7b" ++ String.intercalate ", " (pyReprFields fs) ++ "\x7d"

/-- `repr` of each element of a Python list. -/
def pyReprList : List JValue → List String
  | [] => []
  | x :: xs => pyRepr x :: pyReprList xs

/-- `repr` of each key/value pair of a Python dictionary. -/
def pyReprFields : List (String × JValue) → List String
  | [] => []
  | (k, v) :: fs =>
    (String.singleton (Char.ofNat 39) ++ k ++ String.singleton (Char.ofNat 39) ++ ": " ++ pyRepr v)
      :: pyReprFields fs

end

/-- Python `str(x)` as used by f-string interpolation: a string is
inserted as-is, anything else by its `repr`-style rendering. -/
def pyFormat : JValue → String
  | .str s => s
  | v => pyRepr v

/-- Truncation applied to assistant turns by the narrative generator:
the first 500 characters followed by three dots when the length exceeds
500, else the message itself. -/
def truncate500 (s : String) : String :=
  if s.length > 500 then s.take 500 ++ "..." else s

/-- The assistant turn of one iteration of the narrative loop: `len`
raises on numbers, booleans and `None`; slicing followed by string
concatenation raises on lists and dictionaries longer than 500;
otherwise the (possibly truncated) message is formatted. -/
def assistantEntry : JValue → Except String String
  | .str s => .ok ("**Assistant:** " ++ truncate500 s)
  | .arr xs =>
    if xs.length > 500 then .error "TypeError: can only concatenate list to list"
    else .ok ("**Assistant:** " ++ pyFormat (.arr xs))
  | .obj fs =>
    if fs.length > 500 then .error "TypeError: slice of dictionary"
    else .ok ("**Assistant:** " ++ pyFormat (.obj fs))
  | _ => .error "TypeError: object has no len"

/-- The iterations of the `while` loop of `generate_narrative_section`
once the user bucket is exhausted: each remaining assistant message
still yields one turn line and one separator line. -/
def asstOnlyLoop : List JValue → Except String (List String)
  | [] => .ok []
  | a :: bs =>
    match assistantEntry a with
    | .error e => .error e
    | .ok m =>
      match asstOnlyLoop bs with
      | .ok tl => .ok (m :: "" :: tl)
      | .error e => .error e

/-- The `while` loop of `generate_narrative_section`: per iteration,
emit the next user message (if any), then the next assistant message
(if any), then an empty separator line, until both buckets are
exhausted. -/
def narrativeLoop : List JValue → List JValue → Except String (List String)
  | [], bs => asstOnlyLoop bs
  | u :: us, [] =>
    match narrativeLoop us [] with
    | .ok tl => .ok (("**User:** " ++ pyFormat u) :: "" :: tl)
    | .error e => .error e
  | u :: us, a :: bs =>
    match assistantEntry a with
    | .error e => .error e
    | .ok m =>
      match narrativeLoop us bs with
      | .ok tl => .ok (("**User:** " ++ pyFormat u) :: m :: "" :: tl)
      | .error e => .error e

/-- `generate_narrative_section(data)`: the interleaved transcript,
joined with newlines. -/
def generate_narrative_section (d : SummaryData) : Except String String :=
  match narrativeLoop d.user_messages d.assistant_messages with
  | .ok entries => .ok (String.intercalate "\n" entries)
  | .error e => .error e

/-- The narrative as the spec describes it: a strict round-robin merge
by bucket position, each turn labeled, assistant turns truncated at 500
characters with a marker, user turns never truncated, every iteration
followed by one empty separator line. -/
def narrativeSpec : List String → List String → List String
  | [], bs => bs.flatMap fun a => [("**Assistant:** " ++ truncate500 a), ""]
  | u :: us, [] => ("**User:** " ++ u) :: "" :: narrativeSpec us []
  | u :: us, a :: bs =>
    ("**User:** " ++ u) :: ("**Assistant:** " ++ truncate500 a) :: "" :: narrativeSpec us bs

example :
    generate_current_state ⟨[.str "hi"], [], [⟨none, none⟩], [], []⟩
      = "**State:** Session with 1 actions taken | **Errors:** None | **Messages:** 1 exchanges" := rfl

example :
    generate_decisions_section ⟨[], [.str "chose to use X", .str "hello"], [], [], []⟩
      = .ok "- chose to use X" := rfl

example :
    generate_decisions_section ⟨[], [], [], [], []⟩
      = .ok "- No explicit decisions recorded in this session" := rfl

example :
    generate_narrative_section ⟨[.str "hi"], [.str "chose to use X"], [], [], []⟩
      = .ok ("**User:** hi" ++ "\n" ++ "**Assistant:** chose to use X" ++ "\n") := rfl

/-- Python `str.strip()`: remove whitespace from both ends. -/
def pyStrip (s : String) : String :=
  ⟨((s.data.dropWhile Char.isWhitespace).reverse.dropWhile Char.isWhitespace).reverse⟩

/-- `parse_session_log`, abstracted over the JSON decoder (`json.loads`
is standard-library code, not part of this repository): the file is its
list of lines; each line is stripped; stripped-blank lines are skipped
silently; lines the decoder rejects are skipped, each emitting exactly
one warning (modelled by a counter); decoded records are collected in
order.  The function is total: no line can abort it. -/
def parse_session_log (decode : String → Option JValue) : List String → List JValue × Nat
  | [] => ([], 0)
  | line :: rest =>
    if pyStrip line = "" then parse_session_log decode rest
    else
      match decode (pyStrip line) with
      | some v =>
        (v :: (parse_session_log decode rest).1, (parse_session_log decode rest).2)
      | none =>
        ((parse_session_log decode rest).1, (parse_session_log decode rest).2 + 1)

/-- The fixed text before the timestamp in the rendered document. -/
def titleMarker : String := "# Session Summary: "

/-- The fixed text between the timestamp and the status line. -/
def statusMarker : String := "\n\n<!-- Quick scan -->\n"

/-- The fixed text between the status line and the decision list (the
summary line contains the mojibake bytes present in the source). -/
def decisionsMarker : String :=
  "\n\n<details>\n<summary>ğŸ“‹ Key Decisions (click to expand)</summary>\n\n"

/-- The fixed text between the decision list and the narrative. -/
def narrativeMarker : String :=
  "\n\n</details>\n\n<details>\n<summary>ğŸ“– Full Narrative (click for details)</summary>\n\n"

/-- The fixed text after the narrative. -/
def footerMarker : String :=
  "\n\n</details>\n\n---\n\n*Generated automatically by session-summary from Claude Code session logs*\n"

/-- The f-string template of `generate_markdown_summary`, parameterized
by the three section strings and the timestamp. -/
def renderTemplate (current_state decisions narrative timestamp : String) : String :=
  titleMarker ++ timestamp ++ statusMarker ++ current_state ++ decisionsMarker ++
    decisions ++ narrativeMarker ++ narrative ++ footerMarker

/-- `generate_markdown_summary(data, timestamp)`: generate the three
sections, then substitute them into the fixed template. -/
def generate_markdown_summary (d : SummaryData) (timestamp : String) : Except String String :=
  match generate_decisions_section d with
  | .error e => .error e
  | .ok decisions =>
    match generate_narrative_section d with
    | .error e => .error e
    | .ok narrative =>
      .ok (renderTemplate (generate_current_state d) decisions narrative timestamp)

/-- Split a character list at the first occurrence of `marker`,
returning the parts before and after it; `none` when the marker does
not occur. -/
def splitFirst (marker : List Char) : List Char → Option (List Char × List Char)
  | [] => if marker.isEmpty then some ([], []) else none
  | c :: rest =>
    if marker.isPrefixOf (c :: rest) then some ([], (c :: rest).drop marker.length)
    else
      match splitFirst marker rest with
      | some (pre, post) => some (c :: pre, post)
      | none => none

/-- Remove a required leading segment. -/
def dropHead (p l : List Char) : Option (List Char) :=
  if p.isPrefixOf l then some (l.drop p.length) else none

/-- Remove a required trailing segment. -/
def dropTail (p l : List Char) : Option (List Char) :=
  if p.isSuffixOf l then some (l.take (l.length - p.length)) else none

/-- Re-parsing of the rendered document at its fixed section
boundaries, following the round-trip property of the spec: strip the
fixed title text, cut at the first occurrence of each fixed boundary,
strip the fixed trailer.  Recovers (timestamp, status line, decision
list, narrative). -/
def extractSections (doc : String) : Option (String × String × String × String) :=
  match dropHead titleMarker.data doc.data with
  | none => none
  | some r1 =>
    match splitFirst statusMarker.data r1 with
    | none => none
    | some (t, r2) =>
      match splitFirst decisionsMarker.data r2 with
      | none => none
      | some (s, r3) =>
        match splitFirst narrativeMarker.data r3 with
        | none => none
        | some (dcs, r4) =>
          match dropTail footerMarker.data r4 with
          | none => none
          | some n => some (⟨t⟩, ⟨s⟩, ⟨dcs⟩, ⟨n⟩)

/-- `content` is clean for `marker` when no occurrence of the marker
starts strictly before the end of `content ++ marker`: the first
occurrence of the boundary after the content is then the boundary the
renderer wrote. -/
def CleanFor (marker content : String) : Prop :=
  ∀ i, i < content.length →
    marker.data.isPrefixOf ((content.data ++ marker.data).drop i) = false

instance (m c : String) : Decidable (CleanFor m c) :=
  inferInstanceAs
    (Decidable (∀ i, i < c.length →
      m.data.isPrefixOf ((c.data ++ m.data).drop i) = false))

example :
    parse_session_log (fun s => if s = "1" then some (.num 1) else none)
      ["  ", "1", "bad", "1"] = ([.num 1, .num 1], 1) := rfl

example :
    extractSections (renderTemplate "S" "D" "N" "2025-01-01-1200")
      = some ("2025-01-01-1200", "S", "D", "N") := rfl

/-! ## Claim C1 -/

/-- The shape condition of the amended C1: the record is not a mapping,
or its `message` field is absent or itself a mapping. -/
def messageShapeOk : JValue → Bool
  | .obj fields =>
    match List.lookup "message" fields with
    | none => true
    | some (.obj _) => true
    | some _ => false
  | _ => true

lemma handleMessage_ok_of_obj (d : SummaryData) (e : JValue)
    (mfs : List (String × JValue)) (hm : (e.get "message").getD e = .obj mfs) :
    ∃ d1, handleMessage d e = .ok d1 := by
  simp only [handleMessage, hm]
  repeat' split
  all_goals exact ⟨_, rfl⟩

lemma effective_message_obj (fs : List (String × JValue))
    (h : messageShapeOk (.obj fs) = true) :
    ∃ mfs, ((JValue.obj fs).get "message").getD (JValue.obj fs) = .obj mfs := by
  have hg : (JValue.obj fs).get "message" = List.lookup "message" fs := rfl
  simp only [messageShapeOk] at h
  cases hl : List.lookup "message" fs with
  | none => refine ⟨fs, ?_⟩; rw [hg, hl]; rfl
  | some v =>
    rw [hl] at h
    cases v with
    | obj mfs => refine ⟨mfs, ?_⟩; rw [hg, hl]; rfl
    | null => simp at h
    | bool b => simp at h
    | num n => simp at h
    | str s => simp at h
    | arr xs => simp at h

lemma processEvent_ok_of_shape (d : SummaryData) (e : JValue)
    (h : messageShapeOk e = true) : ∃ d1, processEvent d e = .ok d1 := by
  cases e with
  | obj fs =>
    obtain ⟨mfs, hm⟩ := effective_message_obj fs h
    obtain ⟨d1, h1⟩ := handleMessage_ok_of_obj d (.obj fs) mfs hm
    exact ⟨handleToolResult d1 (.obj fs), by simp only [processEvent, h1]⟩
  | null => exact ⟨d, rfl⟩
  | bool b => exact ⟨d, rfl⟩
  | num n => exact ⟨d, rfl⟩
  | str s => exact ⟨d, rfl⟩
  | arr xs => exact ⟨d, rfl⟩

lemma extractLoop_ok_of_shape (events : List JValue) (d : SummaryData)
    (h : ∀ e ∈ events, messageShapeOk e = true) :
    ∃ dOut, extractLoop d events = .ok dOut := by
  induction events generalizing d with
  | nil => exact ⟨d, rfl⟩
  | cons e rest ih =>
    obtain ⟨d1, h1⟩ := processEvent_ok_of_shape d e (h e (List.mem_cons_self e rest))
    obtain ⟨dOut, h2⟩ := ih d1 (fun x hx => h x (List.mem_cons_of_mem e hx))
    exact ⟨dOut, by simp only [extractLoop, h1, h2]⟩

/-- C1 counterexample: a record that is a mapping whose `message` field
is a bare string makes the classifier abort with an error (Python
raises `AttributeError`), instead of using the record itself or
skipping the record. -/
theorem extract_aborts_on_nonmapping_message :
    extract_summary_data [.obj [("message", .str "oops")]]
      = .error "AttributeError: effective message is not a mapping" := rfl

/-- C1 (amended): the classifier never aborts on a record sequence in
which every record that is a mapping has its `message` field absent or
itself a mapping (non-mapping records are skipped); the fallback to the
record itself happens only when the `message` field is absent, and a
present non-mapping `message` value makes the classifier raise. -/
theorem extract_ok_of_message_shape (events : List JValue)
    (h : ∀ e ∈ events, messageShapeOk e = true) :
    ∃ d, extract_summary_data events = .ok d :=
  extractLoop_ok_of_shape events emptyData h

theorem extract_ok_of_message_shape_witness :
    ∃ d, extract_summary_data
      [.str "flat", .obj [("type", .str "tool_result")],
       .obj [("message", .obj [("role", .str "user"), ("content", .str "hi")])]]
      = .ok d :=
  extract_ok_of_message_shape _ (by decide)

/-! ## Claim C2 -/

/-- C2 counterexample: a record whose effective message has role
assistant and whose content sequence holds the bare string hello leaves
every bucket empty — the bare string is not appended to the
assistant-message bucket, although the claim says it is. -/
theorem assistant_bare_string_not_appended :
    extract_summary_data
      [.obj [("role", .str "assistant"), ("content", .arr [.str "hello"])]]
      = .ok ⟨[], [], [], [], []⟩ ∧ JValue.str "hello" ∉ ([] : List JValue) :=
  ⟨rfl, by simp⟩

lemma asstContentItems_skip_anywhere (before : List JValue) (s : String)
    (after : List JValue) :
    asstContentItems (before ++ .str s :: after) = asstContentItems (before ++ after) := by
  induction before with
  | nil => rfl
  | cons item rest ih =>
    simp only [List.cons_append, asstContentItems, List.append_eq, ih]

lemma userContentItems_append_str (before : List JValue) (s : String)
    (after : List JValue) :
    userContentItems (before ++ .str s :: after)
      = userContentItems before ++ .str s :: userContentItems after := by
  induction before with
  | nil => rfl
  | cons item rest ih =>
    cases item with
    | obj fields =>
      by_cases hc : (JValue.obj fields).get "type" = some (.str "text") <;>
        simp [userContentItems, hc, ih]
    | str t => simp [userContentItems, ih]
    | null => simp [userContentItems, ih]
    | bool b => simp [userContentItems, ih]
    | num nn => simp [userContentItems, ih]
    | arr xs => simp [userContentItems, ih]

lemma handleToolResult_keeps_messages (d : SummaryData) (e : JValue) :
    (handleToolResult d e).assistant_messages = d.assistant_messages ∧
      (handleToolResult d e).tool_uses = d.tool_uses := by
  unfold handleToolResult
  repeat' split
  all_goals exact ⟨rfl, rfl⟩

/-- C2 (amended): in an assistant content sequence, bare-string
elements are skipped wherever they occur (only mapping elements are
inspected): the item loop gives the same texts and tool uses with or
without a bare-string element at any position, and for any mapping
record — flat or nested — whose effective message has role assistant
and such a content sequence, the classifier appends exactly what the
remaining elements contribute; the user branch, by contrast, appends
bare-string elements. -/
theorem assistant_string_items_skipped :
    (∀ (before : List JValue) (s : String) (after : List JValue),
      asstContentItems (before ++ .str s :: after)
        = asstContentItems (before ++ after)) ∧
    (∀ (before : List JValue) (s : String) (after : List JValue),
      userContentItems (before ++ .str s :: after)
        = userContentItems before ++ .str s :: userContentItems after) ∧
    (∀ (d : SummaryData) (e : JValue) (fs mfs : List (String × JValue))
      (before : List JValue) (s : String) (after : List JValue),
      e = .obj fs →
      (e.get "message").getD e = .obj mfs →
      List.lookup "role" mfs = some (.str "assistant") →
      List.lookup "content" mfs = some (.arr (before ++ .str s :: after)) →
      ∃ d2, processEvent d e = .ok d2 ∧
        d2.assistant_messages
          = d.assistant_messages ++ (asstContentItems (before ++ after)).1 ∧
        d2.tool_uses = d.tool_uses ++ (asstContentItems (before ++ after)).2) := by
  refine ⟨asstContentItems_skip_anywhere, userContentItems_append_str, ?_⟩
  intro d e fs mfs before s after hobj hm hrole hcontent
  subst hobj
  have hhm : handleMessage d (.obj fs) = .ok { d with
      assistant_messages := d.assistant_messages ++ (asstContentItems (before ++ after)).1,
      tool_uses := d.tool_uses ++ (asstContentItems (before ++ after)).2 } := by
    simp only [handleMessage, hm, hrole, hcontent, Option.getD_some]
    rw [asstContentItems_skip_anywhere]
    simp
  obtain ⟨hka, hkt⟩ := handleToolResult_keeps_messages { d with
      assistant_messages := d.assistant_messages ++ (asstContentItems (before ++ after)).1,
      tool_uses := d.tool_uses ++ (asstContentItems (before ++ after)).2 } (.obj fs)
  refine ⟨handleToolResult { d with
      assistant_messages := d.assistant_messages ++ (asstContentItems (before ++ after)).1,
      tool_uses := d.tool_uses ++ (asstContentItems (before ++ after)).2 } (.obj fs),
    ?_, ?_, ?_⟩
  · simp only [processEvent, hhm]
  · rw [hka]
  · rw [hkt]

theorem assistant_string_items_skipped_witness :
    ∃ d2, processEvent emptyData
        (.obj [("message", .obj [("role", .str "assistant"),
          ("content", .arr [.obj [("type", .str "text"), ("text", .str "t1")],
            .str "skipme",
            .obj [("type", .str "text"), ("text", .str "t2")]])])])
        = .ok d2 ∧
      d2.assistant_messages = emptyData.assistant_messages ++
        (asstContentItems ([.obj [("type", .str "text"), ("text", .str "t1")]] ++
          [.obj [("type", .str "text"), ("text", .str "t2")]])).1 ∧
      d2.tool_uses = emptyData.tool_uses ++
        (asstContentItems ([.obj [("type", .str "text"), ("text", .str "t1")]] ++
          [.obj [("type", .str "text"), ("text", .str "t2")]])).2 :=
  assistant_string_items_skipped.2.2 emptyData _ _
    [("role", .str "assistant"),
     ("content", .arr [.obj [("type", .str "text"), ("text", .str "t1")],
       .str "skipme", .obj [("type", .str "text"), ("text", .str "t2")]])]
    [.obj [("type", .str "text"), ("text", .str "t1")]] "skipme"
    [.obj [("type", .str "text"), ("text", .str "t2")]]
    rfl rfl rfl rfl

/-! ## Claim C3 -/

lemma handleMessage_buckets (d : SummaryData) (e : JValue) (d1 : SummaryData)
    (h : handleMessage d e = .ok d1) :
    d1.tool_results = d.tool_results ∧ d1.errors = d.errors := by
  simp only [handleMessage] at h
  repeat' split at h
  all_goals cases h
  all_goals exact ⟨rfl, rfl⟩

lemma handleToolResult_le (d : SummaryData) (e : JValue)
    (hle : d.errors.length ≤ d.tool_results.length) :
    (handleToolResult d e).errors.length ≤ (handleToolResult d e).tool_results.length := by
  unfold handleToolResult
  split
  · split
    · simp only [List.length_append, List.length_cons, List.length_nil]
      omega
    · simp only [List.length_append, List.length_cons, List.length_nil]
      omega
  · exact hle

lemma processEvent_le (d : SummaryData) (e : JValue) (d1 : SummaryData)
    (h : processEvent d e = .ok d1)
    (hle : d.errors.length ≤ d.tool_results.length) :
    d1.errors.length ≤ d1.tool_results.length := by
  cases e with
  | obj fs =>
    simp only [processEvent] at h
    cases hm : handleMessage d (.obj fs) with
    | error s => rw [hm] at h; cases h
    | ok dm =>
      rw [hm] at h
      cases h
      obtain ⟨ht, he⟩ := handleMessage_buckets d _ dm hm
      exact handleToolResult_le dm _ (by rw [he, ht]; exact hle)
  | null => cases h; exact hle
  | bool b => cases h; exact hle
  | num n => cases h; exact hle
  | str s => cases h; exact hle
  | arr xs => cases h; exact hle

lemma extractLoop_le (events : List JValue) (d dOut : SummaryData)
    (h : extractLoop d events = .ok dOut)
    (hle : d.errors.length ≤ d.tool_results.length) :
    dOut.errors.length ≤ dOut.tool_results.length := by
  induction events generalizing d with
  | nil => cases h; exact hle
  | cons e rest ih =>
    simp only [extractLoop] at h
    cases hp : processEvent d e with
    | error s => rw [hp] at h; cases h
    | ok d1 =>
      rw [hp] at h
      exact ih d1 h (processEvent_le d e d1 hp hle)

/-- C3: every error descriptor is also appended to the tool-result
bucket: a successful run ends with error-bucket length at most the
tool-result-bucket length, and processing one mapping record with type
tool_result and truthy is_error grows both buckets by exactly one. -/
theorem errors_le_tool_results :
    (∀ events d, extract_summary_data events = .ok d →
      d.errors.length ≤ d.tool_results.length) ∧
    (∀ d e d1, e.get "type" = some (.str "tool_result") →
      truthy (e.get "is_error") = true → processEvent d e = .ok d1 →
      d1.errors.length = d.errors.length + 1 ∧
        d1.tool_results.length = d.tool_results.length + 1) := by
  constructor
  · intro events d h
    exact extractLoop_le events emptyData d h (by simp [emptyData])
  · intro d e d1 htype herr h
    cases e with
    | obj fs =>
      simp only [processEvent] at h
      cases hm : handleMessage d (.obj fs) with
      | error s => rw [hm] at h; cases h
      | ok dm =>
        rw [hm] at h
        cases h
        obtain ⟨ht, he⟩ := handleMessage_buckets d _ dm hm
        unfold handleToolResult
        rw [if_pos htype, if_pos herr]
        refine ⟨?_, ?_⟩ <;>
          simp [List.length_append, he, ht]
    | null => simp [JValue.get] at htype
    | bool b => simp [JValue.get] at htype
    | num n => simp [JValue.get] at htype
    | str s => simp [JValue.get] at htype
    | arr xs => simp [JValue.get] at htype

theorem errors_le_tool_results_witness :
    (SummaryData.mk [] [] [] [⟨none, none⟩] [⟨none, none⟩]).errors.length ≤
      (SummaryData.mk [] [] [] [⟨none, none⟩] [⟨none, none⟩]).tool_results.length :=
  errors_le_tool_results.1
    [.obj [("type", .str "tool_result"), ("is_error", .bool true)]] _ rfl

/-! ## Claim C4 -/

/-- C4: the status generator reports exactly the bucket lengths: the
tool-invocation count as actions taken, the error count when positive
(else the word None), and the user-message count as exchanges. -/
theorem generate_current_state_eq_spec (d : SummaryData) :
    generate_current_state d
      = statusLineSpec d.tool_uses.length d.errors.length d.user_messages.length := by
  unfold generate_current_state statusLineSpec
  by_cases h : d.errors.length > 0
  · simp only [if_pos h, String.append_assoc]
  · simp only [if_neg h, String.append_assoc]

/-! ## Claims C5 and C9 -/

lemma decisionEntries_strings (msgs : List String) :
    decisionEntries (msgs.map .str)
      = .ok ((msgs.filter hasDecisionKeyword).map fun m => "- " ++ truncate200 m) := by
  induction msgs with
  | nil => rfl
  | cons m rest ih =>
    simp only [List.map_cons, decisionEntries, ih, List.filter_cons]
    by_cases h : hasDecisionKeyword m
    · simp [h]
    · simp [h]

/-- C5: the decision generator emits exactly the keyword-matching
assistant messages, each once, verbatim in order, truncated at 200
characters with a marker exactly when longer, and the single
placeholder line when none matches. -/
theorem generate_decisions_eq_spec (d : SummaryData) (msgs : List String)
    (h : d.assistant_messages = msgs.map .str) :
    generate_decisions_section d
      = .ok (String.intercalate "\n" (decisionsSpec msgs)) := by
  unfold generate_decisions_section decisionsSpec
  rw [h, decisionEntries_strings]

theorem generate_decisions_eq_spec_witness :
    generate_decisions_section ⟨[], [.str "chose to use X"], [], [], []⟩
      = .ok (String.intercalate "\n" (decisionsSpec ["chose to use X"])) :=
  generate_decisions_eq_spec _ ["chose to use X"] rfl

lemma listInfixOf_nil (l : List Char) : listInfixOf [] l = true := by
  induction l with
  | nil => rfl
  | cons c rest ih => simp [listInfixOf]

lemma isPrefixOf_append_self (a b : List Char) : a.isPrefixOf (a ++ b) = true := by
  induction a with
  | nil => simp
  | cons c rest ih => simp [List.cons_append, List.isPrefixOf, ih]

lemma listInfixOf_append (needle pre post : List Char) :
    listInfixOf needle (pre ++ (needle ++ post)) = true := by
  induction pre with
  | nil =>
    cases needle with
    | nil => simpa using listInfixOf_nil post
    | cons c rest => simp [listInfixOf, isPrefixOf_append_self]
  | cons c pre ih => simp [listInfixOf, ih]

/-- C9: keyword detection is plain substring containment, not
whole-word matching: an assistant message whose lowercase form contains
one of the five keywords anywhere — also inside a longer word — is
included in the decision list. -/
theorem decision_keyword_substring (d : SummaryData) (msgs : List String)
    (h : d.assistant_messages = msgs.map .str) (m : String) (hm : m ∈ msgs)
    (k : String) (hk : k ∈ keywords) (pre post : String)
    (hsub : pyLower m = pre ++ k ++ post) :
    ∃ l, decisionEntries d.assistant_messages = .ok l ∧
      ("- " ++ truncate200 m) ∈ l := by
  have hkw : hasDecisionKeyword m = true := by
    unfold hasDecisionKeyword
    rw [List.any_eq_true]
    refine ⟨k, hk, ?_⟩
    unfold strContains
    rw [hsub]
    have hdata : (pre ++ k ++ post).data = pre.data ++ (k.data ++ post.data) := by
      simp [String.data_append]
    rw [hdata]
    exact listInfixOf_append _ _ _
  refine ⟨_, by rw [h]; exact decisionEntries_strings msgs, ?_⟩
  exact List.mem_map_of_mem _ (List.mem_filter.mpr ⟨hm, hkw⟩)

theorem decision_keyword_substring_witness :
    ∃ l, decisionEntries
        (SummaryData.mk [] [.str "refusing"] [] [] []).assistant_messages
      = .ok l ∧ ("- " ++ truncate200 "refusing") ∈ l :=
  decision_keyword_substring _ ["refusing"] rfl "refusing" (by simp)
    "using" (by simp [keywords]) "ref" "" (by decide)

/-! ## Claim C6 -/

lemma ne_empty_of_append_left (a b : String) (ha : a.length ≠ 0) :
    (a ++ b == "") = false := by
  rw [beq_eq_false_iff_ne]
  intro hc
  apply ha
  have hl := congrArg String.length hc
  rw [String.length_append] at hl
  simp only [String.length_empty] at hl
  omega

lemma assistantEntry_str (a : String) :
    assistantEntry (.str a) = .ok ("**Assistant:** " ++ truncate500 a) := rfl

lemma asstOnlyLoop_strings (bs : List String) :
    asstOnlyLoop (bs.map .str) = .ok (narrativeSpec [] bs) := by
  induction bs with
  | nil => rfl
  | cons a bs ih =>
    simp only [List.map_cons, asstOnlyLoop, assistantEntry_str, ih, narrativeSpec]
    simp [List.flatMap_cons]

lemma narrativeLoop_strings (us bs : List String) :
    narrativeLoop (us.map .str) (bs.map .str) = .ok (narrativeSpec us bs) := by
  induction us generalizing bs with
  | nil => simpa using asstOnlyLoop_strings bs
  | cons u us ih =>
    cases bs with
    | nil =>
      have ihn := ih []
      simp only [List.map_nil] at ihn
      simp only [List.map_cons, List.map_nil, narrativeLoop, ihn, pyFormat, narrativeSpec]
    | cons a bs =>
      simp only [List.map_cons, narrativeLoop, assistantEntry_str, ih bs, pyFormat,
        narrativeSpec]

lemma narrativeSpec_nil_turns (bs : List String) :
    ((narrativeSpec [] bs).filter (fun s => !(s == ""))).length = bs.length := by
  induction bs with
  | nil => rfl
  | cons a bs ih =>
    simp only [narrativeSpec] at ih ⊢
    simp [List.flatMap_cons, List.filter_cons,
      ne_empty_of_append_left "**Assistant:** " (truncate500 a) (by decide), ih]

lemma narrativeSpec_nil_seps (bs : List String) :
    ((narrativeSpec [] bs).filter (fun s => s == "")).length = bs.length := by
  induction bs with
  | nil => rfl
  | cons a bs ih =>
    simp only [narrativeSpec] at ih ⊢
    simp [List.flatMap_cons, List.filter_cons,
      ne_empty_of_append_left "**Assistant:** " (truncate500 a) (by decide), ih]

lemma narrativeSpec_turn_count (us bs : List String) :
    ((narrativeSpec us bs).filter (fun s => !(s == ""))).length
      = us.length + bs.length := by
  induction us generalizing bs with
  | nil => simpa using narrativeSpec_nil_turns bs
  | cons u us ih =>
    cases bs with
    | nil =>
      simp only [narrativeSpec, List.filter_cons,
        ne_empty_of_append_left "**User:** " u (by decide)]
      simp [ih []]
    | cons a bs =>
      simp only [narrativeSpec, List.filter_cons,
        ne_empty_of_append_left "**User:** " u (by decide),
        ne_empty_of_append_left "**Assistant:** " (truncate500 a) (by decide)]
      simp [ih bs]
      omega

lemma narrativeSpec_sep_count (us bs : List String) :
    ((narrativeSpec us bs).filter (fun s => s == "")).length
      = max us.length bs.length := by
  induction us generalizing bs with
  | nil => simpa using narrativeSpec_nil_seps bs
  | cons u us ih =>
    cases bs with
    | nil =>
      simp only [narrativeSpec, List.filter_cons,
        ne_empty_of_append_left "**User:** " u (by decide)]
      simp [ih []]
    | cons a bs =>
      simp only [narrativeSpec, List.filter_cons,
        ne_empty_of_append_left "**User:** " u (by decide),
        ne_empty_of_append_left "**Assistant:** " (truncate500 a) (by decide)]
      simp [ih bs, Nat.succ_max_succ]

/-- C6: the narrative is the strict round-robin merge by bucket
position, with assistant turns truncated at 500 characters with a
marker and user turns verbatim; its turn-line count is the sum of the
two bucket lengths and its separator-line count is their maximum. -/
theorem generate_narrative_counts (d : SummaryData) (us bs : List String)
    (hu : d.user_messages = us.map .str) (ha : d.assistant_messages = bs.map .str) :
    generate_narrative_section d
        = .ok (String.intercalate "\n" (narrativeSpec us bs)) ∧
    ((narrativeSpec us bs).filter (fun s => !(s == ""))).length
        = us.length + bs.length ∧
    ((narrativeSpec us bs).filter (fun s => s == "")).length
        = max us.length bs.length := by
  refine ⟨?_, narrativeSpec_turn_count us bs, narrativeSpec_sep_count us bs⟩
  unfold generate_narrative_section
  rw [hu, ha, narrativeLoop_strings]

theorem generate_narrative_counts_witness :
    generate_narrative_section ⟨[.str "hi"], [.str "a", .str "b"], [], [], []⟩
        = .ok (String.intercalate "\n" (narrativeSpec ["hi"] ["a", "b"])) ∧
    ((narrativeSpec ["hi"] ["a", "b"]).filter (fun s => !(s == ""))).length
        = ["hi"].length + ["a", "b"].length ∧
    ((narrativeSpec ["hi"] ["a", "b"]).filter (fun s => s == "")).length
        = max ["hi"].length ["a", "b"].length :=
  generate_narrative_counts _ ["hi"] ["a", "b"] rfl rfl

/-! ## Claim C7 -/

/-- C7: for any decoder and any line sequence, the parser yields
exactly the decodings of the stripped non-blank decodable lines in
order (the same record sequence as a file holding only those lines),
emits one warning per non-blank undecodable line, skips
whitespace-only lines silently, and — being a total function — never
aborts because of one bad line. -/
theorem parse_session_log_robust (decode : String → Option JValue)
    (lines : List String) :
    (parse_session_log decode lines).1
        = lines.filterMap
            (fun l => if pyStrip l = "" then none else decode (pyStrip l)) ∧
    (parse_session_log decode lines).2
        = (lines.filter
            (fun l => !(pyStrip l == "") && (decode (pyStrip l)).isNone)).length ∧
    (parse_session_log decode lines).1
        = (parse_session_log decode
            (lines.filter
              (fun l => pyStrip l == "" || (decode (pyStrip l)).isSome))).1 := by
  induction lines with
  | nil => exact ⟨rfl, rfl, rfl⟩
  | cons line rest ih =>
    obtain ⟨ih1, ih2, ih3⟩ := ih
    refine ⟨?_, ?_, ?_⟩
    · by_cases hb : pyStrip line = ""
      · simp [parse_session_log, hb, List.filterMap_cons, ih1]
      · cases hd : decode (pyStrip line) with
        | some v => simp [parse_session_log, hb, hd, List.filterMap_cons, ih1]
        | none => simp [parse_session_log, hb, hd, List.filterMap_cons, ih1]
    · by_cases hb : pyStrip line = ""
      · simp [parse_session_log, hb, List.filter_cons, ih2]
      · cases hd : decode (pyStrip line) with
        | some v => simp [parse_session_log, hb, hd, List.filter_cons, ih2]
        | none => simp [parse_session_log, hb, hd, List.filter_cons, ih2]
    · by_cases hb : pyStrip line = ""
      · simpa [parse_session_log, hb, List.filter_cons] using ih3
      · cases hd : decode (pyStrip line) with
        | some v => simpa [parse_session_log, hb, hd, List.filter_cons] using ih3
        | none => simpa [parse_session_log, hb, hd, List.filter_cons] using ih3

/-! ## Claim C10 -/

lemma handleToolResult_user (d : SummaryData) (e : JValue) :
    (handleToolResult d e).user_messages = d.user_messages := by
  unfold handleToolResult
  repeat' split
  all_goals rfl

/-- C10: a mapping record whose effective message has role user and no
content field defaults the content to the empty string, which is
appended to the user-message bucket, growing the exchange count by
one. -/
theorem user_missing_content_appends_empty (d : SummaryData) (e : JValue)
    (fs mfs : List (String × JValue)) (hobj : e = .obj fs)
    (hmsg : (e.get "message").getD e = .obj mfs)
    (hrole : List.lookup "role" mfs = some (.str "user"))
    (hcontent : List.lookup "content" mfs = none) :
    ∃ d2, processEvent d e = .ok d2 ∧
      d2.user_messages = d.user_messages ++ [.str ""] ∧
      d2.user_messages.length = d.user_messages.length + 1 := by
  subst hobj
  have hhm : handleMessage d (.obj fs)
      = .ok { d with user_messages := d.user_messages ++ [.str ""] } := by
    simp only [handleMessage, hmsg, hrole, hcontent]
    rfl
  refine ⟨handleToolResult
      { d with user_messages := d.user_messages ++ [.str ""] } (.obj fs), ?_, ?_, ?_⟩
  · simp only [processEvent, hhm]
  · rw [handleToolResult_user]
  · rw [handleToolResult_user]
    simp

theorem user_missing_content_appends_empty_witness :
    ∃ d2, processEvent emptyData (.obj [("message", .obj [("role", .str "user")])])
        = .ok d2 ∧
      d2.user_messages = emptyData.user_messages ++ [.str ""] ∧
      d2.user_messages.length = emptyData.user_messages.length + 1 :=
  user_missing_content_appends_empty emptyData _
    [("message", .obj [("role", .str "user")])] [("role", .str "user")]
    rfl rfl rfl rfl

/-! ## Claim C8 -/

lemma isSuffixOf_append_self (a b : List Char) : a.isSuffixOf (b ++ a) = true := by
  simp [List.isSuffixOf, List.reverse_append, isPrefixOf_append_self]

lemma isPrefixOf_append_of_le (m X post : List Char) (h : m.length ≤ X.length) :
    m.isPrefixOf (X ++ post) = m.isPrefixOf X := by
  induction m generalizing X with
  | nil => simp
  | cons c m ih =>
    cases X with
    | nil => simp at h
    | cons x X =>
      simp only [List.cons_append, List.isPrefixOf_cons₂]
      rw [ih X (Nat.le_of_succ_le_succ (by simpa using h))]

lemma splitFirst_of_clean (m pre post : List Char) (hm : m ≠ [])
    (h : ∀ i, i < pre.length → m.isPrefixOf ((pre ++ m).drop i) = false) :
    splitFirst m (pre ++ (m ++ post)) = some (pre, post) := by
  induction pre with
  | nil =>
    cases m with
    | nil => exact absurd rfl hm
    | cons c m2 =>
      have e1 : (c :: m2).isPrefixOf ((c :: m2) ++ post) = true :=
        isPrefixOf_append_self _ _
      have e2 : ((c :: m2) ++ post).drop (c :: m2).length = post := List.drop_left _ _
      simp only [List.nil_append, List.cons_append] at e1 e2 ⊢
      simp [splitFirst, e1, e2]
  | cons c pre ih =>
    have h0 : m.isPrefixOf (c :: (pre ++ m)) = false := by
      have hh := h 0 (by simp)
      simpa using hh
    have hcond : m.isPrefixOf (c :: (pre ++ (m ++ post))) = false := by
      have heq : c :: (pre ++ (m ++ post)) = (c :: (pre ++ m)) ++ post := by
        simp [List.append_assoc]
      rw [heq, isPrefixOf_append_of_le m (c :: (pre ++ m)) post
        (by simp [List.length_append]; omega)]
      exact h0
    have hrec := ih (fun i hi => by
      have hh := h (i + 1) (by simpa using Nat.succ_lt_succ hi)
      simpa using hh)
    simp only [List.cons_append, splitFirst]
    simp [hcond, hrec]

/-- C8 (amended): rendering then re-parsing the fixed section
boundaries recovers the timestamp and the three sections exactly,
provided the timestamp, the status line and the decision list each
contain no earlier occurrence of the boundary that follows them (when
one of them does, as the counterexample shows, a different earlier
boundary is found and the recovery fails). -/
theorem render_roundtrip_of_clean (cs dcs n t : String)
    (h1 : CleanFor statusMarker t) (h2 : CleanFor decisionsMarker cs)
    (h3 : CleanFor narrativeMarker dcs) :
    extractSections (renderTemplate cs dcs n t) = some (t, cs, dcs, n) := by
  have hdoc : (renderTemplate cs dcs n t).data
      = titleMarker.data ++ (t.data ++ (statusMarker.data ++ (cs.data ++
          (decisionsMarker.data ++ (dcs.data ++ (narrativeMarker.data ++
          (n.data ++ footerMarker.data))))))) := by
    simp [renderTemplate, String.data_append, List.append_assoc]
  have hstep1 : dropHead titleMarker.data (renderTemplate cs dcs n t).data
      = some (t.data ++ (statusMarker.data ++ (cs.data ++ (decisionsMarker.data ++
          (dcs.data ++ (narrativeMarker.data ++ (n.data ++ footerMarker.data))))))) := by
    rw [hdoc]
    simp [dropHead, isPrefixOf_append_self, List.drop_left]
  have hsplit1 : splitFirst statusMarker.data
      (t.data ++ (statusMarker.data ++ (cs.data ++ (decisionsMarker.data ++
        (dcs.data ++ (narrativeMarker.data ++ (n.data ++ footerMarker.data)))))))
      = some (t.data, cs.data ++ (decisionsMarker.data ++
          (dcs.data ++ (narrativeMarker.data ++ (n.data ++ footerMarker.data))))) :=
    splitFirst_of_clean _ _ _ (by decide) h1
  have hsplit2 : splitFirst decisionsMarker.data
      (cs.data ++ (decisionsMarker.data ++
        (dcs.data ++ (narrativeMarker.data ++ (n.data ++ footerMarker.data)))))
      = some (cs.data, dcs.data ++ (narrativeMarker.data ++
          (n.data ++ footerMarker.data))) :=
    splitFirst_of_clean _ _ _ (by decide) h2
  have hsplit3 : splitFirst narrativeMarker.data
      (dcs.data ++ (narrativeMarker.data ++ (n.data ++ footerMarker.data)))
      = some (dcs.data, n.data ++ footerMarker.data) :=
    splitFirst_of_clean _ _ _ (by decide) h3
  have hlast : dropTail footerMarker.data (n.data ++ footerMarker.data)
      = some n.data := by
    simp [dropTail, isSuffixOf_append_self, List.length_append,
      Nat.add_sub_cancel, List.take_left]
  unfold extractSections
  simp only [hstep1, hsplit1, hsplit2, hsplit3, hlast]

theorem render_roundtrip_of_clean_witness :
    extractSections
        (renderTemplate "**State:** ok" "- none" "**User:** hi" "2025-01-01-1200")
      = some ("2025-01-01-1200", "**State:** ok", "- none", "**User:** hi") :=
  render_roundtrip_of_clean "**State:** ok" "- none" "**User:** hi" "2025-01-01-1200"
    (by decide) (by decide) (by decide)

/-- C8 counterexample: when the timestamp itself contains the status
boundary, re-parsing the rendered document does not recover the
original inputs. -/
theorem render_roundtrip_fails :
    extractSections (renderTemplate "S" "D" "N" ("X" ++ statusMarker ++ "Y"))
      ≠ some ("X" ++ statusMarker ++ "Y", "S", "D", "N") := by decide
